import Mathlib

/-!
Verification of the Boltz channel-creation plugin (src/channel-creation.py)
against its specification.

The plugin's pure core is embedded shallowly:

* `Status`, `ChannelCreation` — the swap record (hex-string fields such as
  `private_key` and `redeem_script` are modelled as their decoded byte
  sequences, `List Nat`).
* `check_channel_open`, `on_openchannel`, `on_invoice_payment`,
  `add_channel_creation`, `refund_channel_creation` — the state machine and
  RPC entry points.  External collaborators (hash functions, ECDSA signing,
  address decoding, the node RPC, the Boltz HTTP API) are passed in as
  explicit parameters; exceptions raised by the Python code are modelled with
  `Except`.
* Python's float arithmetic (`invoice_amount / (1 - inbound_percentage / 100)`)
  is modelled exactly: every CPython float operation used here is a correctly
  rounded IEEE-754 binary64 operation, which `round64 : ℚ → ℚ` reproduces
  (round to nearest, ties to even; the exponent range is unbounded, which is
  faithful for all values the plugin can reach).
-/

namespace BoltzPlugin

/- Batteries marks the `Rat` field operations `@[irreducible]`; re-marking
them semireducible lets `decide` evaluate the rounding model on concrete
inputs. -/
attribute [local semireducible] Rat.mul Rat.add Rat.sub Rat.inv

/-! ## IEEE-754 binary64 rounding, modelled exactly over ℚ -/

/-- Number of binary digits of `n` (0 for 0), driven by explicit fuel so that
evaluation is structural, tail-recursively with accumulator `acc`;
`bits` instantiates the fuel with `n` itself. -/
def bitsAux : Nat → Nat → Nat → Nat
  | 0, _, acc => acc
  | fuel + 1, n, acc => if n = 0 then acc else bitsAux fuel (n / 2) (acc + 1)

/-- Non-accumulator reference version of `bitsAux`, for proofs. -/
def bitsRef : Nat → Nat → Nat
  | 0, _ => 0
  | fuel + 1, n => if n = 0 then 0 else bitsRef fuel (n / 2) + 1

/-- Number of binary digits of `n`: `2 ^ (bits n - 1) ≤ n < 2 ^ bits n` for
`0 < n`. -/
def bits (n : Nat) : Nat := bitsAux n n 0

/-- `2 ^ e` as a rational, written so that the kernel can evaluate it. -/
def pow2 : ℤ → ℚ
  | .ofNat n => ((2 ^ n : ℕ) : ℚ)
  | .negSucc n => 1 / ((2 ^ (n + 1) : ℕ) : ℚ)

/-- The binary exponent of a positive rational: the unique `e` with
`2 ^ e ≤ q < 2 ^ (e + 1)`. -/
def findExp (q : ℚ) : ℤ :=
  let e0 : ℤ := (bits q.num.toNat : ℤ) - (bits q.den : ℤ)
  if pow2 e0 ≤ q then e0 else e0 - 1

/-- Round a rational to the nearest integer, ties to even.  The fractional
part `q - ⌊q⌋` is compared with `1/2` on integers:
`q - ⌊q⌋ < 1/2 ↔ 2 * (q.num - ⌊q⌋ * q.den) < q.den`. -/
def rhe (q : ℚ) : ℤ :=
  if 2 * (q.num - q.floor * q.den) < (q.den : ℤ) then q.floor
  else if (q.den : ℤ) < 2 * (q.num - q.floor * q.den) then q.floor + 1
  else if q.floor % 2 = 0 then q.floor else q.floor + 1

/-- Correctly rounded binary64 value of a positive rational: scale into
`[2 ^ 52, 2 ^ 53)`, round the mantissa to nearest (ties to even), scale back
(the result is `rhe (q * 2 ^ (52 - e)) * 2 ^ (e - 52)`, assembled with
`Rat.divInt` so that the kernel can evaluate it). -/
def round64Pos (q : ℚ) : ℚ :=
  let e := findExp q
  let m := rhe (q * pow2 ((52 : ℤ) - e))
  Rat.divInt (m * ((2 ^ (e - 52).toNat : ℕ) : ℤ)) ((2 ^ ((52 : ℤ) - e).toNat : ℕ) : ℤ)

/-- Correctly rounded binary64 value of a rational (round to nearest, ties to
even; exponent range unbounded). -/
def round64 (q : ℚ) : ℚ :=
  if q = 0 then 0 else if 0 < q then round64Pos q else -round64Pos (-q)

/-! ## The swap record and the channel-open guard -/

/-- `Status` enum of the plugin. -/
inductive Status where
  | Created
  | ChannelAccepted
  | InvoicePaid
  | Refunded
deriving DecidableEq, Repr

/-- Byte sequences; hex strings holding binary data are modelled decoded. -/
abbrev Bytes := List Nat

/-- The `ChannelCreation` dataclass.  The Python field `private` is a Lean
keyword, hence the guillemets. -/
structure ChannelCreation where
  status : Status
  id : String
  private_key : Bytes
  redeem_script : Bytes
  «private» : Bool
  invoice_amount : ℤ
  inbound_percentage : ℤ
  invoice_label : String
  preimage_hash : String
  address : String
  expected_amount : ℤ
  bip21 : String
deriving DecidableEq, Repr

/-- The fields of the `openchannel` hook payload the plugin reads.
`push_msat` and `funding_satoshis` hold the millisatoshi values produced by
`Millisatoshi(...).millisatoshis`. -/
structure OpenChannel where
  id : String
  push_msat : ℤ
  funding_satoshis : ℤ
  channel_flags : ℤ
deriving DecidableEq, Repr

/-- The float `inbound_percentage / 100`: correctly rounded binary64 true
division of two Python ints. -/
def inbound_ratio (inbound_percentage : ℤ) : ℚ :=
  round64 ((inbound_percentage : ℚ) / 100)

/-- The float `1 - (inbound_percentage / 100)`: correctly rounded binary64
subtraction. -/
def capacity_denominator (inbound_percentage : ℤ) : ℚ :=
  round64 (1 - inbound_ratio inbound_percentage)

/-- `math.floor(invoice_amount / (1 - (inbound_percentage / 100)))` with
CPython semantics: `invoice_amount / denom` converts the int to binary64
(rounding) and divides (rounding), and `math.floor` is exact.  `none` models
the `ZeroDivisionError` CPython raises when the divisor is the float `0.0`. -/
def expected_capacity (invoice_amount inbound_percentage : ℤ) : Option ℤ :=
  if capacity_denominator inbound_percentage = 0 then none
  else some (round64 (round64 (invoice_amount : ℚ) /
    capacity_denominator inbound_percentage)).floor

/-- The capacity rejection message (Python builds it with `str.format`). -/
def capacity_error_message (expected : ℤ) : String :=
  "minimum capacity requirement of " ++ toString expected ++ "msat not met"

/-- `check_channel_open`: returns the rejection reason, `""` for acceptance.
`Except.error` models the uncaught `ZeroDivisionError` of the capacity
computation. -/
def check_channel_open (openchannel : OpenChannel)
    (channel_creation : ChannelCreation) : Except String String :=
  if openchannel.push_msat ≠ 0 then .ok "push amount not 0"
  else
    match expected_capacity channel_creation.invoice_amount
        channel_creation.inbound_percentage with
    | none => .error "ZeroDivisionError: float division by zero"
    | some expected =>
        if expected > openchannel.funding_satoshis then
          .ok (capacity_error_message expected)
        else if channel_creation.«private» ∧ openchannel.channel_flags = 1 then
          .ok "channel is not private"
        else if channel_creation.«private» = false ∧ openchannel.channel_flags = 0 then
          .ok "channel is not public"
        else .ok ""

/-! ## Hook results and the openchannel hook -/

/-- Result dictionary of a hook: `{"result": "continue"}` or
`{"result": "reject", ...}` (the openchannel hook attaches an
`error_message`, the invoice_payment hook does not). -/
inductive HookResult where
  | cont
  | reject (error_message : Option String)
deriving DecidableEq, Repr

/-- The `openchannel` hook.  The plugin state is the optional current swap
record (`hasattr(plugin, "channel_creation")`); the hook returns the result
dictionary and the new state. -/
def on_openchannel (boltz_node : String) (state : Option ChannelCreation)
    (openchannel : OpenChannel) :
    Except String (HookResult × Option ChannelCreation) :=
  match state with
  | none => .ok (.cont, state)
  | some channel_creation =>
      if openchannel.id ≠ boltz_node ∨ channel_creation.status ≠ Status.Created then
        .ok (.cont, state)
      else
        match check_channel_open openchannel channel_creation with
        | .error e => .error e
        | .ok error =>
            if error ≠ "" then .ok (.reject (some error), state)
            else .ok (.cont, some { channel_creation with status := Status.ChannelAccepted })

/-! ## The invoice_payment hook -/

/-- One channel of `listpeers`: its `state` string and the `payment_hash`
of each entry of its `htlcs` list. -/
structure PeerChannel where
  state : String
  htlcs : List String
deriving DecidableEq, Repr

/-- One peer of `listpeers`: its node `id` and its channels. -/
structure Peer where
  id : String
  channels : List PeerChannel
deriving DecidableEq, Repr

/-- The `invoice_payment` hook.  `peers` is
`plugin.rpc.listpeers(plugin.boltz_node)["peers"]`; the Python code indexes
`[0]` and `["channels"][-1]` without guards, so an empty peer list or an
empty channel list raises `IndexError`, modelled with `Except.error`. -/
def on_invoice_payment (state : Option ChannelCreation) (payment_label : String)
    (peers : List Peer) :
    Except String (HookResult × Option ChannelCreation) :=
  match state with
  | none => .ok (.cont, state)
  | some channel_creation =>
      if channel_creation.invoice_label ≠ payment_label then .ok (.cont, state)
      else if channel_creation.status ≠ Status.ChannelAccepted then
        .ok (.reject none, state)
      else
        match peers.head? with
        | none => .error "IndexError: list index out of range"
        | some peer =>
            match peer.channels.getLast? with
            | none => .error "IndexError: list index out of range"
            | some channel =>
                if channel_creation.preimage_hash ∈ channel.htlcs then
                  .ok (.cont, some { channel_creation with status := Status.InvoicePaid })
                else .ok (.reject none, state)

/-! ## Transactions and the escrow-output locator

`sha256` (hashlib) and `hash160` (`bitcoin.core.script.Hash160`), address
decoding (`CBitcoinAddress(...).to_scriptPubKey()`), BIP-143 sighash
computation (`SignatureHash`) and ECDSA signing (`CBitcoinSecret.sign`) are
external library collaborators and are passed as explicit function
parameters. -/

/-- One output of a transaction: `nValue` (satoshis) and `scriptPubKey`. -/
structure CTxOut where
  nValue : ℤ
  scriptPubKey : Bytes
deriving DecidableEq, Repr

/-- The all-default output used as the `List.getD` fallback in statements. -/
def nullTxOut : CTxOut := CTxOut.mk 0 []

/-- The lockup `CTransaction` as the plugin uses it: its txid
(`GetTxid()`) and its outputs. -/
structure LockupTransaction where
  txid : Bytes
  vout : List CTxOut
deriving DecidableEq, Repr

/-- One input of the refund transaction: outpoint, scriptSig, sequence. -/
structure CTxIn where
  prevout_txid : Bytes
  prevout_n : Nat
  scriptSig : Bytes
  nSequence : Nat
deriving DecidableEq, Repr

/-- The refund `CMutableTransaction`: inputs, outputs, locktime and the
witness (one stack of byte strings per input). -/
structure RefundTransaction where
  vin : List CTxIn
  vout : List CTxOut
  nLockTime : ℤ
  wit : List (List Bytes)
deriving DecidableEq, Repr

/-- The script-pubkey `find_swap_output` searches for:
`CScript([OP_HASH160, Hash160(CScript([OP_0, sha256(redeem_script)])), OP_EQUAL])`.
`CScript` serializes a data push of fewer than 0x4c bytes as one length byte
followed by the data; `OP_0` is `0x00`, `OP_HASH160` is `0xa9`, `OP_EQUAL`
is `0x87`. -/
def swap_output_script (sha256 hash160 : Bytes → Bytes)
    (redeem_script : Bytes) : Bytes :=
  let redeem_hash := sha256 redeem_script
  let pw2sh_script := 0x00 :: (redeem_hash.length :: redeem_hash)
  let h := hash160 pw2sh_script
  0xa9 :: h.length :: (h ++ [0x87])

/-- The scan of `find_swap_output`: index of the first output whose
script-pubkey equals `p2sh_script`. -/
def find_swap_output_scan (p2sh_script : Bytes) : List CTxOut → Option Nat
  | [] => none
  | txout :: rest =>
      if txout.scriptPubKey = p2sh_script then some 0
      else (find_swap_output_scan p2sh_script rest).map (· + 1)

/-- `find_swap_output`: locate the escrow output of the lockup transaction;
the `ValueError` raised when no output matches is modelled as
`Except.error`. -/
def find_swap_output (sha256 hash160 : Bytes → Bytes)
    (lockup_transaction : LockupTransaction) (redeem_script : Bytes) :
    Except String Nat :=
  let p2sh_script := swap_output_script sha256 hash160 redeem_script
  match find_swap_output_scan p2sh_script lockup_transaction.vout with
  | some i => .ok i
  | none => .error "could not find swap output"

/-- `SIGHASH_ALL` byte. -/
def SIGHASH_ALL : Nat := 0x01

/-- `construct_refund_transaction`.  `addr_script` models
`CBitcoinAddress(address).to_scriptPubKey()` (`none` for a
`CBitcoinAddressError`); `signature_hash tx amount script` models
`SignatureHash(script, tx, inIdx=0, SIGHASH_ALL, amount,
SIGVERSION_WITNESS_V0)`; `sign key hash` models
`CBitcoinSecret.from_secret_bytes(key).sign(hash)`. -/
def construct_refund_transaction (sha256 hash160 : Bytes → Bytes)
    (addr_script : String → Option Bytes)
    (signature_hash : RefundTransaction → ℤ → Bytes → Bytes)
    (sign : Bytes → Bytes → Bytes)
    (channel_creation : ChannelCreation)
    (lockup_transaction : LockupTransaction)
    (address : String) (timeout_block_height : ℤ) :
    Except String RefundTransaction :=
  match find_swap_output sha256 hash160 lockup_transaction
      channel_creation.redeem_script with
  | .error e => .error e
  | .ok lockup_vout =>
      match addr_script address with
      | none => .error ("Could not parse Bitcoin address: " ++ address)
      | some output_script =>
          let redeem_script := channel_creation.redeem_script
          let nested_script := 0x22 :: 0x00 :: 0x20 :: sha256 redeem_script
          let inputs :=
            [CTxIn.mk lockup_transaction.txid lockup_vout nested_script 0xfffffffd]
          let input_amount :=
            (lockup_transaction.vout.getD lockup_vout nullTxOut).nValue
          let output_amount := input_amount - 1000
          let outputs := [CTxOut.mk output_amount output_script]
          let refund_transaction : RefundTransaction :=
            RefundTransaction.mk inputs outputs timeout_block_height []
          let sighash := signature_hash refund_transaction input_amount redeem_script
          let sig := sign channel_creation.private_key sighash ++ [SIGHASH_ALL]
          Except.ok { refund_transaction with wit := [[sig, [], redeem_script]] }

/-! ## RPC methods: addchannelcreation and refundchannelcreation -/

/-- Result of the `addchannelcreation` RPC method. -/
inductive AddResult where
  | err (message : String)
  | ok (address : String) (expectedAmount : ℤ) (bip21 : String)
deriving DecidableEq, Repr

/-- The fields of the `invoice` RPC response the plugin reads. -/
structure InvoiceResponse where
  bolt11 : String
  payment_hash : String
deriving DecidableEq, Repr

/-- The fields of the Boltz `createswap` response the plugin reads; an
`{"error": ...}` response is modelled as `Except.error`. -/
structure SwapResponse where
  id : String
  bip21 : String
  address : String
  redeemScript : Bytes
  expectedAmount : ℤ
deriving DecidableEq, Repr

/-- `add_channel_creation`.  `peers` is `listpeers()["peers"]`;
`invoice_label`, `invoice_response`, `private_key` and `swap` are the results
of the random label draw, the `invoice` RPC, `get_keys()` and the Boltz
`createswap` call.  Returns the RPC response and the new plugin state. -/
def add_channel_creation (state : Option ChannelCreation) (peers : List Peer)
    (boltz_node : String) (invoice_label : String)
    (invoice_response : InvoiceResponse) (private_key : Bytes)
    (swap : Except String SwapResponse)
    (invoice_amount : ℤ) (inbound_percentage : ℤ) («private» : Bool) :
    AddResult × Option ChannelCreation :=
  if state.any (fun channel_creation =>
      channel_creation.status != Status.InvoicePaid &&
        channel_creation.status != Status.Refunded) then
    (.err "there is a pending channel creation already", state)
  else if peers.any (fun peer =>
      peer.id == boltz_node && !peer.channels.isEmpty &&
        peer.channels.any (fun channel => channel.state != "ONCHAIN")) then
    (.err "there is a channel with the Boltz node already", state)
  else
    match swap with
    | .error e => (.err ("could not setup channel creation: " ++ e), state)
    | .ok swap =>
        let channel_creation : ChannelCreation :=
          { id := swap.id
            «private» := «private»
            bip21 := swap.bip21
            status := Status.Created
            address := swap.address
            private_key := private_key
            invoice_label := invoice_label
            invoice_amount := invoice_amount
            redeem_script := swap.redeemScript
            inbound_percentage := inbound_percentage
            expected_amount := swap.expectedAmount
            preimage_hash := invoice_response.payment_hash }
        (.ok channel_creation.address channel_creation.expected_amount swap.bip21,
          some channel_creation)

/-- Result of the `refundchannelcreation` RPC method. -/
inductive RefundResult where
  | err (message : String)
  | ok (txid : String) (txhex : String)
deriving DecidableEq, Repr

/-- The fields of the Boltz `getswaptransaction` response the plugin reads
(`transactionHex` is carried deserialized).  The Python code's
`hasattr(swap_transaction, "error")` check is always `False` on a dict, so
the response's own error field is dead and not modelled. -/
structure SwapTransactionResponse where
  timeoutBlockHeight : ℤ
  transaction : LockupTransaction
deriving DecidableEq, Repr

/-- Broadcast result of `sendrawtransaction`: `success` and `errmsg`. -/
structure BroadcastResponse where
  success : Bool
  errmsg : String
deriving DecidableEq, Repr

/-- `refund_channel_creation`.  `blockcount` is
`getchaininfo()["blockcount"]`, `swap_transaction` the Boltz
`getswaptransaction` response, `newaddr` the `newaddr()` RPC result,
`serialize_hex` and `txid_hex` model `b2x(tx.serialize())` and
`b2x(tx.GetTxid()[::-1])`, and `broadcast` the `sendrawtransaction` result.
Exceptions escaping the method body (from `construct_refund_transaction`)
are `Except.error`; the plugin state is returned alongside the response. -/
def refund_channel_creation (state : Option ChannelCreation)
    (blockcount : ℤ) (swap_transaction : SwapTransactionResponse)
    (newaddr : String) (address : String)
    (sha256 hash160 : Bytes → Bytes) (addr_script : String → Option Bytes)
    (signature_hash : RefundTransaction → ℤ → Bytes → Bytes)
    (sign : Bytes → Bytes → Bytes)
    (serialize_hex txid_hex : RefundTransaction → String)
    (broadcast : BroadcastResponse) :
    Except String (RefundResult × Option ChannelCreation) :=
  match state with
  | none => .ok (.err "no refundable channel creation found", state)
  | some channel_creation =>
      if channel_creation.status = Status.InvoicePaid ∨
          channel_creation.status = Status.Refunded then
        .ok (.err "no refundable channel creation found", state)
      else if blockcount < swap_transaction.timeoutBlockHeight then
        .ok (.err ("channel creation cannot be refunded before block height " ++
          toString swap_transaction.timeoutBlockHeight), state)
      else
        let addr := if address = "" then newaddr else address
        match construct_refund_transaction sha256 hash160 addr_script
            signature_hash sign channel_creation swap_transaction.transaction
            addr swap_transaction.timeoutBlockHeight with
        | .error e => .error e
        | .ok refund_transaction =>
            let refund_transaction_hex := serialize_hex refund_transaction
            let refund_transaction_id := txid_hex refund_transaction
            if broadcast.success then
              .ok (.ok refund_transaction_id refund_transaction_hex,
                some { channel_creation with status := Status.Refunded })
            else
              .ok (.err ("could not broadcast refund transaction " ++
                broadcast.errmsg), state)

/-! ## The spec's exact capacity formula, and concrete example inputs -/

/-- The capacity threshold as the spec's words state it:
`⌊invoice_amount / (1 - inbound_percentage / 100)⌋` over exact rationals.
Kept for comparison with `expected_capacity`, the float computation the code
performs. -/
def spec_expected_capacity (invoice_amount inbound_percentage : ℤ) : ℤ :=
  ((invoice_amount : ℚ) / (1 - (inbound_percentage : ℚ) / 100)).floor

/-- Placeholder 256-bit hash collaborator for concrete runs. -/
def exSha256 (b : Bytes) : Bytes := List.replicate 32 (b.length % 256)

/-- Placeholder 160-bit hash collaborator for concrete runs. -/
def exHash160 (b : Bytes) : Bytes := List.replicate 20 (b.length % 256)

/-- Placeholder address decoder for concrete runs. -/
def exAddrScript (a : String) : Option Bytes :=
  if a = "bad" then none else some [0x51]

/-- Placeholder BIP-143 sighash collaborator for concrete runs. -/
def exSignatureHash (_tx : RefundTransaction) (_amount : ℤ) (_script : Bytes) :
    Bytes := [0xAB]

/-- Placeholder ECDSA signer for concrete runs. -/
def exSign (_key : Bytes) (_hash : Bytes) : Bytes := [0x30, 0x44]

/-- Placeholder transaction serializer for concrete runs. -/
def exSerializeHex (_tx : RefundTransaction) : String := "txhex"

/-- Placeholder reversed-txid hex for concrete runs. -/
def exTxidHex (_tx : RefundTransaction) : String := "txid"

/-- A concrete swap record in state `Created`. -/
def exRecord : ChannelCreation :=
  { status := Status.Created
    id := "swap123"
    private_key := [0x11, 0x22]
    redeem_script := [0xa9, 0x14, 0x33]
    «private» := false
    invoice_amount := 100000
    inbound_percentage := 50
    invoice_label := "boltz-channel-77"
    preimage_hash := "cafebabe"
    address := "bc1qescrow"
    expected_amount := 50000
    bip21 := "bitcoin:bc1qescrow" }

/-- `exRecord` after the channel was accepted. -/
def exAccepted : ChannelCreation := { exRecord with status := Status.ChannelAccepted }

/-- `exRecord` after the invoice was paid (terminal). -/
def exPaid : ChannelCreation := { exRecord with status := Status.InvoicePaid }

/-- A matching channel-open proposal for `exRecord` (`expected_capacity
100000 50 = some 200000`; public channel, flags bit 1). -/
def exProposal : OpenChannel :=
  { id := "node", push_msat := 0, funding_satoshis := 200000, channel_flags := 1 }

/-- A lockup transaction whose single output is `exRecord`'s escrow output,
worth 50000 satoshis. -/
def exLockup : LockupTransaction :=
  { txid := List.replicate 32 1
    vout := [CTxOut.mk 50000 (swap_output_script exSha256 exHash160 exRecord.redeem_script)] }

/-- A lockup transaction whose escrow output is worth only 500 satoshis,
less than the fixed 1000-satoshi fee. -/
def exLockup500 : LockupTransaction :=
  { txid := List.replicate 32 1
    vout := [CTxOut.mk 500 (swap_output_script exSha256 exHash160 exRecord.redeem_script)] }

/-- The Boltz `getswaptransaction` response for `exLockup`. -/
def exSwapTx : SwapTransactionResponse :=
  { timeoutBlockHeight := 600000, transaction := exLockup }

/-- The refund transaction `construct_refund_transaction` builds from
`exRecord`, `exLockup`, address `"addr"` and timeout height 600000. -/
def exRefundTx : RefundTransaction :=
  { vin := [CTxIn.mk (List.replicate 32 1) 0
      (0x22 :: 0x00 :: 0x20 :: List.replicate 32 3) 0xfffffffd]
    vout := [CTxOut.mk 49000 [0x51]]
    nLockTime := 600000
    wit := [[[0x30, 0x44, 0x01], [], [0xa9, 0x14, 0x33]]] }

/-! ## Properties of the binary64 rounding model -/

theorem ratFloor_eq (q : ℚ) : q.floor = ⌊q⌋ :=
  (Rat.floor_def' q).trans Rat.floor_def.symm

theorem pow2_eq (e : ℤ) : pow2 e = (2 : ℚ) ^ e := by
  cases e with
  | ofNat n =>
      show ((2 ^ n : ℕ) : ℚ) = (2 : ℚ) ^ ((n : ℕ) : ℤ)
      rw [zpow_natCast]
      push_cast
      ring
  | negSucc n =>
      show 1 / ((2 ^ (n + 1) : ℕ) : ℚ) = (2 : ℚ) ^ (Int.negSucc n)
      rw [zpow_negSucc, one_div]
      congr 1
      push_cast
      ring

theorem bitsRef_zero (fuel : Nat) : bitsRef fuel 0 = 0 := by
  cases fuel <;> simp [bitsRef]

theorem bitsAux_eq_ref : ∀ fuel n acc, bitsAux fuel n acc = acc + bitsRef fuel n
  | 0, _, _ => by simp [bitsAux, bitsRef]
  | fuel + 1, n, acc => by
      by_cases hn : n = 0
      · simp [bitsAux, bitsRef, hn]
      · simp only [bitsAux, bitsRef, hn, if_false]
        rw [bitsAux_eq_ref fuel (n / 2) (acc + 1)]
        omega

theorem bitsRef_spec : ∀ fuel n, n < 2 ^ fuel → 0 < n →
    2 ^ (bitsRef fuel n - 1) ≤ n ∧ n < 2 ^ bitsRef fuel n := by
  intro fuel
  induction fuel with
  | zero => intro n hn hpos; simp at hn; omega
  | succ f ih =>
      intro n hn hpos
      have hne : ¬n = 0 := by omega
      simp only [bitsRef, hne, if_false]
      rcases Nat.eq_zero_or_pos (n / 2) with hz | hp
      · have h1 : n = 1 := by omega
        subst h1
        simp [bitsRef_zero]
      · have hlt : n / 2 < 2 ^ f := by
          have h2 : n < 2 ^ f * 2 := by
            have : (2 : Nat) ^ (f + 1) = 2 ^ f * 2 := by ring
            omega
          omega
        obtain ⟨hlo, hhi⟩ := ih (n / 2) hlt hp
        set b := bitsRef f (n / 2) with hb
        have hb1 : 1 ≤ b := by
          by_contra hc
          have : b = 0 := by omega
          rw [this] at hhi
          simp at hhi
          omega
        have hpw : 2 ^ b = 2 * 2 ^ (b - 1) := by
          have : b - 1 + 1 = b := by omega
          calc 2 ^ b = 2 ^ (b - 1 + 1) := by rw [this]
            _ = 2 ^ (b - 1) * 2 := pow_succ 2 (b - 1)
            _ = 2 * 2 ^ (b - 1) := by ring
        have hpw2 : 2 ^ (b + 1) = 2 * 2 ^ b := by
          calc 2 ^ (b + 1) = 2 ^ b * 2 := pow_succ 2 b
            _ = 2 * 2 ^ b := by ring
        constructor
        · simp only [Nat.add_sub_cancel]
          omega
        · omega

theorem bits_spec (n : Nat) (hpos : 0 < n) :
    2 ^ (bits n - 1) ≤ n ∧ n < 2 ^ bits n := by
  have h : bits n = bitsRef n n := by
    rw [bits, bitsAux_eq_ref]
    omega
  rw [h]
  exact bitsRef_spec n n (Nat.lt_two_pow n) hpos

theorem bits_pos (n : Nat) (hpos : 0 < n) : 0 < bits n := by
  obtain ⟨-, hhi⟩ := bits_spec n hpos
  by_contra hc
  have : bits n = 0 := by omega
  rw [this] at hhi
  simp at hhi
  omega

theorem natPow_cast_zpow (m : Nat) : ((2 ^ m : Nat) : ℚ) = (2 : ℚ) ^ ((m : Nat) : ℤ) := by
  rw [zpow_natCast]
  push_cast
  ring

theorem findExp_spec (q : ℚ) (hq : 0 < q) :
    (2 : ℚ) ^ findExp q ≤ q ∧ q < (2 : ℚ) ^ (findExp q + 1) := by
  have hnum : 0 < q.num := Rat.num_pos.mpr hq
  set N : Nat := q.num.toNat with hN
  set D : Nat := q.den with hD
  have hNpos : 0 < N := by omega
  have hDpos : 0 < D := q.den_pos
  obtain ⟨hNlo, hNhi⟩ := bits_spec N hNpos
  obtain ⟨hDlo, hDhi⟩ := bits_spec D hDpos
  have hbN : 0 < bits N := bits_pos N hNpos
  have hbD : 0 < bits D := bits_pos D hDpos
  have hqND : q = (N : ℚ) / (D : ℚ) := by
    rw [hN, hD]
    rw [show ((q.num.toNat : ℚ)) = ((q.num : ℚ)) by
      exact_mod_cast congrArg (fun z => ((z : ℤ) : ℚ)) (Int.toNat_of_nonneg (le_of_lt hnum))]
    exact (Rat.num_div_den q).symm
  have hDQ : (0 : ℚ) < (D : ℚ) := by exact_mod_cast hDpos
  have hNlo' : (2 : ℚ) ^ ((bits N : ℤ) - 1) ≤ (N : ℚ) := by
    have h := (by exact_mod_cast hNlo : ((2 ^ (bits N - 1) : Nat) : ℚ) ≤ (N : ℚ))
    rw [natPow_cast_zpow] at h
    rw [show ((bits N : ℤ) - 1) = (((bits N - 1 : Nat) : Nat) : ℤ) by omega]
    exact h
  have hNhi' : (N : ℚ) < (2 : ℚ) ^ (bits N : ℤ) := by
    have h := (by exact_mod_cast hNhi : (N : ℚ) < ((2 ^ bits N : Nat) : ℚ))
    rwa [natPow_cast_zpow] at h
  have hDlo' : (2 : ℚ) ^ ((bits D : ℤ) - 1) ≤ (D : ℚ) := by
    have h := (by exact_mod_cast hDlo : ((2 ^ (bits D - 1) : Nat) : ℚ) ≤ (D : ℚ))
    rw [natPow_cast_zpow] at h
    rw [show ((bits D : ℤ) - 1) = (((bits D - 1 : Nat) : Nat) : ℤ) by omega]
    exact h
  have hDhi' : (D : ℚ) < (2 : ℚ) ^ (bits D : ℤ) := by
    have h := (by exact_mod_cast hDhi : (D : ℚ) < ((2 ^ bits D : Nat) : ℚ))
    rwa [natPow_cast_zpow] at h
  -- upper bound: q < 2 ^ ((bits N : ℤ) - (bits D : ℤ) + 1)
  have hupper : q < (2 : ℚ) ^ ((bits N : ℤ) - (bits D : ℤ) + 1) := by
    have hsplit : (2 : ℚ) ^ ((bits N : ℤ) - (bits D : ℤ) + 1)
        = (2 : ℚ) ^ (bits N : ℤ) / (2 : ℚ) ^ ((bits D : ℤ) - 1) := by
      rw [← zpow_sub₀ (by norm_num : (2 : ℚ) ≠ 0)]
      congr 1
      ring
    rw [hsplit, hqND]
    exact div_lt_div₀ hNhi' hDlo' (le_of_lt (zpow_pos (by norm_num) _))
      (zpow_pos (by norm_num) _)
  -- lower bound: 2 ^ ((bits N : ℤ) - (bits D : ℤ) - 1) ≤ q
  have hlower : (2 : ℚ) ^ ((bits N : ℤ) - (bits D : ℤ) - 1) ≤ q := by
    have hsplit : (2 : ℚ) ^ ((bits N : ℤ) - (bits D : ℤ) - 1)
        = (2 : ℚ) ^ ((bits N : ℤ) - 1) / (2 : ℚ) ^ (bits D : ℤ) := by
      rw [← zpow_sub₀ (by norm_num : (2 : ℚ) ≠ 0)]
      congr 1
      ring
    rw [hsplit, hqND]
    exact div_le_div₀ (by positivity) hNlo' hDQ (le_of_lt hDhi')
  -- now resolve the if in findExp
  unfold findExp
  simp only [pow2_eq, ← hN, ← hD]
  set e0 : ℤ := (bits N : ℤ) - (bits D : ℤ) with he0
  by_cases hcase : (2 : ℚ) ^ e0 ≤ q
  · rw [if_pos hcase]
    exact ⟨hcase, hupper⟩
  · rw [if_neg hcase]
    refine ⟨hlower, ?_⟩
    have hlt : q < (2 : ℚ) ^ e0 := lt_of_not_le hcase
    calc q < (2 : ℚ) ^ e0 := hlt
      _ = (2 : ℚ) ^ (e0 - 1 + 1) := by congr 1; ring

theorem findExp_mono {q₁ q₂ : ℚ} (h1 : 0 < q₁) (hle : q₁ ≤ q₂) :
    findExp q₁ ≤ findExp q₂ := by
  obtain ⟨hlo1, hhi1⟩ := findExp_spec q₁ h1
  obtain ⟨hlo2, hhi2⟩ := findExp_spec q₂ (lt_of_lt_of_le h1 hle)
  by_contra hc
  have hlt : findExp q₂ + 1 ≤ findExp q₁ := by omega
  have : q₂ < q₁ := by
    calc q₂ < (2 : ℚ) ^ (findExp q₂ + 1) := hhi2
      _ ≤ (2 : ℚ) ^ findExp q₁ := zpow_le_zpow_right₀ (by norm_num) hlt
      _ ≤ q₁ := hlo1
  linarith

theorem sub_floor_eq_div (q : ℚ) :
    q - ⌊q⌋ = ((q.num - ⌊q⌋ * q.den : ℤ) : ℚ) / (q.den : ℚ) := by
  have hden : (0 : ℚ) < (q.den : ℚ) := by exact_mod_cast q.den_pos
  rw [eq_div_iff (ne_of_gt hden), sub_mul]
  push_cast
  rw [Rat.mul_den_eq_num]

theorem rhe_frac_lt_iff (q : ℚ) :
    2 * (q.num - ⌊q⌋ * q.den) < (q.den : ℤ) ↔ q - ⌊q⌋ < 1 / 2 := by
  have hden : (0 : ℚ) < (q.den : ℚ) := by exact_mod_cast q.den_pos
  rw [sub_floor_eq_div, div_lt_iff₀ hden]
  constructor
  · intro h
    have h2 : ((2 * (q.num - ⌊q⌋ * q.den) : ℤ) : ℚ) < ((q.den : ℤ) : ℚ) := by
      exact_mod_cast h
    push_cast at h2 ⊢
    linarith
  · intro h
    push_cast at h
    have h2 : ((2 * (q.num - ⌊q⌋ * q.den) : ℤ) : ℚ) < ((q.den : ℤ) : ℚ) := by
      push_cast
      linarith
    exact_mod_cast h2

theorem rhe_frac_gt_iff (q : ℚ) :
    (q.den : ℤ) < 2 * (q.num - ⌊q⌋ * q.den) ↔ 1 / 2 < q - ⌊q⌋ := by
  have hden : (0 : ℚ) < (q.den : ℚ) := by exact_mod_cast q.den_pos
  rw [sub_floor_eq_div, lt_div_iff₀ hden]
  constructor
  · intro h
    have h2 : (((q.den : ℤ)) : ℚ) < ((2 * (q.num - ⌊q⌋ * q.den) : ℤ) : ℚ) := by
      exact_mod_cast h
    push_cast at h2 ⊢
    linarith
  · intro h
    push_cast at h
    have h2 : (((q.den : ℤ)) : ℚ) < ((2 * (q.num - ⌊q⌋ * q.den) : ℤ) : ℚ) := by
      push_cast
      linarith
    exact_mod_cast h2

theorem rhe_eq_classic (q : ℚ) :
    rhe q = if q - ⌊q⌋ < 1 / 2 then ⌊q⌋
      else if 1 / 2 < q - ⌊q⌋ then ⌊q⌋ + 1
      else if ⌊q⌋ % 2 = 0 then ⌊q⌋ else ⌊q⌋ + 1 := by
  unfold rhe
  rw [ratFloor_eq]
  rw [if_congr (rhe_frac_lt_iff q) rfl (if_congr (rhe_frac_gt_iff q) rfl rfl)]

theorem floor_le_rhe (q : ℚ) : ⌊q⌋ ≤ rhe q := by
  rw [← ratFloor_eq]
  unfold rhe
  split_ifs <;> omega

theorem rhe_le_floor_add_one (q : ℚ) : rhe q ≤ ⌊q⌋ + 1 := by
  rw [← ratFloor_eq]
  unfold rhe
  split_ifs <;> omega

theorem rhe_intCast (n : ℤ) : rhe (n : ℚ) = n := by
  rw [rhe_eq_classic, Int.floor_intCast]
  have hc : ((n : ℚ) - n < 1 / 2) := by norm_num
  rw [if_pos hc]

theorem rhe_mono {q₁ q₂ : ℚ} (h : q₁ ≤ q₂) : rhe q₁ ≤ rhe q₂ := by
  have hf : ⌊q₁⌋ ≤ ⌊q₂⌋ := Int.floor_le_floor h
  rcases lt_or_eq_of_le hf with hlt | heq
  · calc rhe q₁ ≤ ⌊q₁⌋ + 1 := rhe_le_floor_add_one q₁
      _ ≤ ⌊q₂⌋ := by omega
      _ ≤ rhe q₂ := floor_le_rhe q₂
  · rw [rhe_eq_classic, rhe_eq_classic, ← heq]
    have hfrac : q₁ - ⌊q₁⌋ ≤ q₂ - ⌊q₁⌋ := by linarith
    split_ifs <;> first | omega | linarith

theorem q_zpow_52 : (2 : ℚ) ^ ((52 : ℤ)) = ((2 ^ (52 : ℕ) : ℤ) : ℚ) := by norm_num

theorem q_zpow_53 : (2 : ℚ) ^ ((53 : ℤ)) = ((2 ^ (53 : ℕ) : ℤ) : ℚ) := by norm_num

/-- The scaled mantissa of a positive rational lies in `[2 ^ 52, 2 ^ 53)`. -/
theorem mantissa_bounds (q : ℚ) (hq : 0 < q) :
    (2 : ℚ) ^ ((52 : ℤ)) ≤ q * (2 : ℚ) ^ ((52 : ℤ) - findExp q) ∧
      q * (2 : ℚ) ^ ((52 : ℤ) - findExp q) < (2 : ℚ) ^ ((53 : ℤ)) := by
  obtain ⟨hlo, hhi⟩ := findExp_spec q hq
  have hpow : (0 : ℚ) < (2 : ℚ) ^ ((52 : ℤ) - findExp q) := zpow_pos (by norm_num) _
  constructor
  · have h1 : (2 : ℚ) ^ findExp q * (2 : ℚ) ^ ((52 : ℤ) - findExp q)
        ≤ q * (2 : ℚ) ^ ((52 : ℤ) - findExp q) :=
      mul_le_mul_of_nonneg_right hlo (le_of_lt hpow)
    calc (2 : ℚ) ^ ((52 : ℤ))
        = (2 : ℚ) ^ findExp q * (2 : ℚ) ^ ((52 : ℤ) - findExp q) := by
          rw [← zpow_add₀ (by norm_num : (2 : ℚ) ≠ 0)]
          congr 1
          ring
      _ ≤ q * (2 : ℚ) ^ ((52 : ℤ) - findExp q) := h1
  · have h1 : q * (2 : ℚ) ^ ((52 : ℤ) - findExp q)
        < (2 : ℚ) ^ (findExp q + 1) * (2 : ℚ) ^ ((52 : ℤ) - findExp q) :=
      mul_lt_mul_of_pos_right hhi hpow
    calc q * (2 : ℚ) ^ ((52 : ℤ) - findExp q)
        < (2 : ℚ) ^ (findExp q + 1) * (2 : ℚ) ^ ((52 : ℤ) - findExp q) := h1
      _ = (2 : ℚ) ^ ((53 : ℤ)) := by
          rw [← zpow_add₀ (by norm_num : (2 : ℚ) ≠ 0)]
          congr 1
          ring

/-- The rounded mantissa of a positive rational lies in `[2 ^ 52, 2 ^ 53]`. -/
theorem rhe_mantissa_bounds (q : ℚ) (hq : 0 < q) :
    (2 : ℤ) ^ (52 : ℕ) ≤ rhe (q * (2 : ℚ) ^ ((52 : ℤ) - findExp q)) ∧
      rhe (q * (2 : ℚ) ^ ((52 : ℤ) - findExp q)) ≤ (2 : ℤ) ^ (53 : ℕ) := by
  obtain ⟨hlo, hhi⟩ := mantissa_bounds q hq
  rw [q_zpow_52] at hlo
  rw [q_zpow_53] at hhi
  set x := q * (2 : ℚ) ^ ((52 : ℤ) - findExp q) with hx
  constructor
  · calc (2 : ℤ) ^ (52 : ℕ) ≤ ⌊x⌋ := Int.le_floor.mpr hlo
      _ ≤ rhe x := floor_le_rhe x
  · have h2 : ⌊x⌋ < (2 : ℤ) ^ (53 : ℕ) := Int.floor_lt.mpr hhi
    calc rhe x ≤ ⌊x⌋ + 1 := rhe_le_floor_add_one x
      _ ≤ (2 : ℤ) ^ (53 : ℕ) := by omega

theorem round64Pos_def (q : ℚ) : round64Pos q
    = (rhe (q * (2 : ℚ) ^ ((52 : ℤ) - findExp q)) : ℚ) * (2 : ℚ) ^ (findExp q - 52) := by
  show Rat.divInt
      (rhe (q * pow2 ((52 : ℤ) - findExp q)) * ((2 ^ (findExp q - 52).toNat : ℕ) : ℤ))
      ((2 ^ (((52 : ℤ) - findExp q)).toNat : ℕ) : ℤ) = _
  rw [pow2_eq, Rat.divInt_eq_div]
  set e := findExp q with he
  set m := rhe (q * (2 : ℚ) ^ ((52 : ℤ) - e)) with hm
  rcases le_or_lt e 52 with hle | hlt
  · have h1 : (e - 52).toNat = 0 := by omega
    have h2 : ((52 : ℤ) - e) = (((52 : ℤ) - e).toNat : ℤ) := by omega
    rw [h1, pow_zero]
    rw [show ((e : ℤ) - 52) = -((52 : ℤ) - e) by ring, zpow_neg, h2, zpow_natCast]
    rw [div_eq_mul_inv]
    push_cast
    rw [Int.toNat_natCast]
    ring
  · have h1 : ((52 : ℤ) - e).toNat = 0 := by omega
    have h2 : ((e : ℤ) - 52) = ((e - 52).toNat : ℤ) := by omega
    rw [h1, pow_zero]
    rw [h2, zpow_natCast]
    push_cast
    rw [Int.toNat_natCast, div_one]

theorem round64Pos_lower (q : ℚ) (hq : 0 < q) :
    (2 : ℚ) ^ findExp q ≤ round64Pos q := by
  obtain ⟨hmlo, -⟩ := rhe_mantissa_bounds q hq
  rw [round64Pos_def]
  have hpow : (0 : ℚ) < (2 : ℚ) ^ (findExp q - 52) := zpow_pos (by norm_num) _
  have h1 : (2 : ℚ) ^ ((52 : ℤ)) ≤ (rhe (q * 2 ^ ((52 : ℤ) - findExp q)) : ℚ) := by
    rw [q_zpow_52]
    exact_mod_cast hmlo
  calc (2 : ℚ) ^ findExp q
      = (2 : ℚ) ^ ((52 : ℤ)) * (2 : ℚ) ^ (findExp q - 52) := by
        rw [← zpow_add₀ (by norm_num : (2 : ℚ) ≠ 0)]
        congr 1
        ring
    _ ≤ (rhe (q * 2 ^ ((52 : ℤ) - findExp q)) : ℚ) * (2 : ℚ) ^ (findExp q - 52) :=
        mul_le_mul_of_nonneg_right h1 (le_of_lt hpow)

theorem round64Pos_upper (q : ℚ) (hq : 0 < q) :
    round64Pos q ≤ (2 : ℚ) ^ (findExp q + 1) := by
  obtain ⟨-, hmhi⟩ := rhe_mantissa_bounds q hq
  rw [round64Pos_def]
  have hpow : (0 : ℚ) < (2 : ℚ) ^ (findExp q - 52) := zpow_pos (by norm_num) _
  have h1 : (rhe (q * 2 ^ ((52 : ℤ) - findExp q)) : ℚ) ≤ (2 : ℚ) ^ ((53 : ℤ)) := by
    rw [q_zpow_53]
    exact_mod_cast hmhi
  calc (rhe (q * 2 ^ ((52 : ℤ) - findExp q)) : ℚ) * (2 : ℚ) ^ (findExp q - 52)
      ≤ (2 : ℚ) ^ ((53 : ℤ)) * (2 : ℚ) ^ (findExp q - 52) :=
        mul_le_mul_of_nonneg_right h1 (le_of_lt hpow)
    _ = (2 : ℚ) ^ (findExp q + 1) := by
        rw [← zpow_add₀ (by norm_num : (2 : ℚ) ≠ 0)]
        rw [show (53 : ℤ) + (findExp q - 52) = findExp q + 1 by ring]

theorem round64Pos_pos (q : ℚ) (hq : 0 < q) : 0 < round64Pos q := by
  have h := round64Pos_lower q hq
  have h2 : (0 : ℚ) < (2 : ℚ) ^ findExp q := zpow_pos two_pos _
  linarith

theorem round64Pos_mono {q₁ q₂ : ℚ} (h1 : 0 < q₁) (hle : q₁ ≤ q₂) :
    round64Pos q₁ ≤ round64Pos q₂ := by
  have h2 : 0 < q₂ := lt_of_lt_of_le h1 hle
  have hee : findExp q₁ ≤ findExp q₂ := findExp_mono h1 hle
  rcases lt_or_eq_of_le hee with helt | heeq
  · calc round64Pos q₁ ≤ (2 : ℚ) ^ (findExp q₁ + 1) := round64Pos_upper q₁ h1
      _ ≤ (2 : ℚ) ^ findExp q₂ := zpow_le_zpow_right₀ (by norm_num) (by omega)
      _ ≤ round64Pos q₂ := round64Pos_lower q₂ h2
  · rw [round64Pos_def, round64Pos_def, ← heeq]
    have hpow : (0 : ℚ) < (2 : ℚ) ^ ((52 : ℤ) - findExp q₁) := zpow_pos (by norm_num) _
    have hscaled : q₁ * (2 : ℚ) ^ ((52 : ℤ) - findExp q₁)
        ≤ q₂ * (2 : ℚ) ^ ((52 : ℤ) - findExp q₁) :=
      mul_le_mul_of_nonneg_right hle (le_of_lt hpow)
    have hm : rhe (q₁ * 2 ^ ((52 : ℤ) - findExp q₁)) ≤ rhe (q₂ * 2 ^ ((52 : ℤ) - findExp q₁)) :=
      rhe_mono hscaled
    apply mul_le_mul_of_nonneg_right _ (le_of_lt (zpow_pos (by norm_num : (0:ℚ) < 2) _))
    exact_mod_cast hm

theorem round64_zero : round64 0 = 0 := by
  unfold round64
  simp

theorem round64_pos {q : ℚ} (hq : 0 < q) : 0 < round64 q := by
  unfold round64
  rw [if_neg (ne_of_gt hq), if_pos hq]
  exact round64Pos_pos q hq

theorem round64_nonneg {q : ℚ} (hq : 0 ≤ q) : 0 ≤ round64 q := by
  rcases eq_or_lt_of_le hq with he | hlt
  · rw [← he, round64_zero]
  · exact le_of_lt (round64_pos hlt)

theorem round64_mono {q₁ q₂ : ℚ} (h0 : 0 ≤ q₁) (hle : q₁ ≤ q₂) :
    round64 q₁ ≤ round64 q₂ := by
  rcases eq_or_lt_of_le h0 with he | hlt
  · rw [← he, round64_zero]
    exact round64_nonneg (le_trans h0 hle)
  · unfold round64
    rw [if_neg (ne_of_gt hlt), if_pos hlt]
    rw [if_neg (ne_of_gt (lt_of_lt_of_le hlt hle)), if_pos (lt_of_lt_of_le hlt hle)]
    exact round64Pos_mono hlt hle

/-- An integer of magnitude below `2 ^ 53` is a binary64 value: rounding is
the identity on it. -/
theorem round64_intCast (a : ℤ) (h0 : 0 < a) (h53 : a < 2 ^ (53 : ℕ)) :
    round64 (a : ℚ) = a := by
  have haq : (0 : ℚ) < (a : ℚ) := by exact_mod_cast h0
  unfold round64
  rw [if_neg (ne_of_gt haq), if_pos haq]
  obtain ⟨hlo, hhi⟩ := findExp_spec (a : ℚ) haq
  set e := findExp (a : ℚ) with he
  have he52 : e ≤ 52 := by
    by_contra hc
    have h1 : (53 : ℤ) ≤ e := by omega
    have h2 : (2 : ℚ) ^ ((53 : ℤ)) ≤ (2 : ℚ) ^ e := zpow_le_zpow_right₀ (by norm_num) h1
    have h3 : ((2 ^ (53 : ℕ) : ℤ) : ℚ) ≤ (a : ℚ) := by
      calc ((2 ^ (53 : ℕ) : ℤ) : ℚ) = (2 : ℚ) ^ ((53 : ℤ)) := q_zpow_53.symm
        _ ≤ (2 : ℚ) ^ e := h2
        _ ≤ (a : ℚ) := hlo
    have : (2 : ℤ) ^ (53 : ℕ) ≤ a := by exact_mod_cast h3
    omega
  rw [round64Pos_def, ← he]
  have hk : (52 : ℤ) - e = (((52 - e).toNat : ℕ) : ℤ) := by omega
  have hcast : (a : ℚ) * (2 : ℚ) ^ ((52 : ℤ) - e) = ((a * 2 ^ (52 - e).toNat : ℤ) : ℚ) := by
    rw [hk, zpow_natCast]
    push_cast
    rw [Int.toNat_natCast]
  rw [hcast, rhe_intCast, ← hcast]
  rw [mul_assoc, ← zpow_add₀ (by norm_num : (2 : ℚ) ≠ 0)]
  have hzero : (52 : ℤ) - e + (e - 52) = 0 := by ring
  rw [hzero, zpow_zero, mul_one]

/-! ## Properties of the capacity computation -/

theorem inbound_ratio_nonneg {p : ℤ} (h0 : 0 ≤ p) : 0 ≤ inbound_ratio p := by
  unfold inbound_ratio
  apply round64_nonneg
  positivity

theorem inbound_ratio_mono {p₁ p₂ : ℤ} (h0 : 0 ≤ p₁) (h : p₁ ≤ p₂) :
    inbound_ratio p₁ ≤ inbound_ratio p₂ := by
  unfold inbound_ratio
  apply round64_mono
  · positivity
  · have hpq : (p₁ : ℚ) ≤ (p₂ : ℚ) := by exact_mod_cast h
    linarith

theorem inbound_ratio_le_c99 {p : ℤ} (h0 : 0 ≤ p) (h : p < 100) :
    inbound_ratio p ≤ inbound_ratio 99 :=
  inbound_ratio_mono h0 (by omega)

theorem c99_lt_one : inbound_ratio 99 < 1 := by decide

theorem capacity_denominator_pos {p : ℤ} (h0 : 0 ≤ p) (h : p < 100) :
    0 < capacity_denominator p := by
  have h1 : inbound_ratio p ≤ inbound_ratio 99 := inbound_ratio_le_c99 h0 h
  have h2 : (0 : ℚ) < capacity_denominator 99 := by decide
  calc (0 : ℚ) < capacity_denominator 99 := h2
    _ ≤ capacity_denominator p := by
        unfold capacity_denominator
        apply round64_mono
        · have := c99_lt_one
          linarith
        · linarith

theorem capacity_denominator_antitone {p₁ p₂ : ℤ} (h0 : 0 ≤ p₁) (h12 : p₁ ≤ p₂)
    (h : p₂ < 100) : capacity_denominator p₂ ≤ capacity_denominator p₁ := by
  have hr : inbound_ratio p₁ ≤ inbound_ratio p₂ := inbound_ratio_mono h0 h12
  have h99 : inbound_ratio p₂ ≤ inbound_ratio 99 := inbound_ratio_le_c99 (by omega) h
  unfold capacity_denominator
  apply round64_mono
  · have := c99_lt_one
    linarith
  · linarith

theorem expected_capacity_eq_some {a p : ℤ} (h0 : 0 ≤ p) (h : p < 100) :
    expected_capacity a p
      = some ⌊round64 (round64 (a : ℚ) / capacity_denominator p)⌋ := by
  unfold expected_capacity
  rw [if_neg (ne_of_gt (capacity_denominator_pos h0 h)), ratFloor_eq]

theorem expected_capacity_zero {a : ℤ} (h0 : 0 < a) (h53 : a < 2 ^ (53 : ℕ)) :
    expected_capacity a 0 = some a := by
  rw [expected_capacity_eq_some (by omega) (by omega)]
  have hd : capacity_denominator 0 = 1 := by decide
  rw [hd, div_one, round64_intCast a h0 h53, round64_intCast a h0 h53]
  rw [Int.floor_intCast]

theorem expected_capacity_mono {a p₁ p₂ : ℤ} (ha : 0 < a) (h0 : 0 ≤ p₁)
    (h12 : p₁ ≤ p₂) (h : p₂ < 100) :
    ∃ e₁ e₂ : ℤ, expected_capacity a p₁ = some e₁ ∧
      expected_capacity a p₂ = some e₂ ∧ e₁ ≤ e₂ := by
  refine ⟨_, _, expected_capacity_eq_some h0 (by omega),
    expected_capacity_eq_some (by omega) h, ?_⟩
  have hd2 : 0 < capacity_denominator p₂ := capacity_denominator_pos (by omega) h
  have hd1 : 0 < capacity_denominator p₁ := capacity_denominator_pos h0 (by omega)
  have hanti : capacity_denominator p₂ ≤ capacity_denominator p₁ :=
    capacity_denominator_antitone h0 h12 h
  have hA : 0 < round64 (a : ℚ) := round64_pos (by exact_mod_cast ha)
  have hdiv : round64 (a : ℚ) / capacity_denominator p₁
      ≤ round64 (a : ℚ) / capacity_denominator p₂ :=
    (div_le_div_iff_of_pos_left hA hd1 hd2).mpr hanti
  apply Int.floor_le_floor
  apply round64_mono _ hdiv
  positivity

theorem expected_capacity_at_100 (a : ℤ) : expected_capacity a 100 = none := by
  unfold expected_capacity
  rw [if_pos (by decide : capacity_denominator 100 = 0)]

/-! ## Properties of check_channel_open -/

/-- `check_channel_open` unfolded once the capacity computation succeeded. -/
theorem check_channel_open_cases (oc : OpenChannel) (cc : ChannelCreation) (e : ℤ)
    (hexp : expected_capacity cc.invoice_amount cc.inbound_percentage = some e) :
    check_channel_open oc cc =
      if oc.push_msat ≠ 0 then .ok "push amount not 0"
      else if e > oc.funding_satoshis then .ok (capacity_error_message e)
      else if cc.«private» ∧ oc.channel_flags = 1 then .ok "channel is not private"
      else if cc.«private» = false ∧ oc.channel_flags = 0 then .ok "channel is not public"
      else .ok "" := by
  unfold check_channel_open
  rw [hexp]

theorem capacity_error_message_ne (e : ℤ) (s : String) (hs : s.length < 44) :
    capacity_error_message e ≠ s := by
  intro h
  have hlen := congrArg String.length h
  rw [capacity_error_message, String.length_append, String.length_append] at hlen
  have h1 : ("minimum capacity requirement of " : String).length = 32 := rfl
  have h2 : ("msat not met" : String).length = 12 := rfl
  omega

/-- The capacity rejection happens exactly for a too-small proposed capacity
(when the push-amount check has passed). -/
theorem check_channel_open_capacity_iff (oc : OpenChannel) (cc : ChannelCreation)
    (e : ℤ)
    (hexp : expected_capacity cc.invoice_amount cc.inbound_percentage = some e) :
    check_channel_open oc cc = .ok (capacity_error_message e) ↔
      oc.push_msat = 0 ∧ oc.funding_satoshis < e := by
  rw [check_channel_open_cases oc cc e hexp]
  by_cases hpush : oc.push_msat ≠ 0
  · rw [if_pos hpush]
    constructor
    · intro h
      exact absurd (Except.ok.inj h).symm (capacity_error_message_ne e _ (by decide))
    · rintro ⟨h0, -⟩
      exact absurd h0 hpush
  · rw [if_neg hpush]
    by_cases hcap : e > oc.funding_satoshis
    · rw [if_pos hcap]
      constructor
      · intro _h
        exact ⟨not_not.mp hpush, hcap⟩
      · intro _h
        rfl
    · rw [if_neg hcap]
      constructor
      · intro h
        exfalso
        split_ifs at h with h1 h2
        · exact capacity_error_message_ne e _ (by decide) (Except.ok.inj h).symm
        · exact capacity_error_message_ne e _ (by decide) (Except.ok.inj h).symm
        · exact capacity_error_message_ne e _ (by decide) (Except.ok.inj h).symm
      · rintro ⟨-, hlt⟩
        exact absurd hlt (by omega)

/-! ## Properties of the escrow-output locator -/

theorem find_swap_output_scan_some (s : Bytes) :
    ∀ (l : List CTxOut) (i : Nat),
      find_swap_output_scan s l = some i ↔
        (i < l.length ∧ (l.getD i nullTxOut).scriptPubKey = s ∧
          ∀ j, j < i → (l.getD j nullTxOut).scriptPubKey ≠ s)
  | [], i => by simp [find_swap_output_scan]
  | t :: rest, i => by
      rw [find_swap_output_scan]
      by_cases ht : t.scriptPubKey = s
      · rw [if_pos ht]
        cases i with
        | zero =>
            simp only [List.getD_cons_zero, List.length_cons]
            exact ⟨fun _ => ⟨by omega, ht, fun j hj => absurd hj (Nat.not_lt_zero j)⟩,
              fun _ => trivial⟩
        | succ n =>
            constructor
            · intro h
              exact absurd (Option.some.inj h) (by omega)
            · rintro ⟨-, -, hall⟩
              exact absurd ht (hall 0 (Nat.succ_pos n))
      · rw [if_neg ht]
        cases i with
        | zero =>
            constructor
            · intro h
              rcases Option.map_eq_some'.mp h with ⟨k, -, hk⟩
              omega
            · rintro ⟨-, h0, -⟩
              rw [List.getD_cons_zero] at h0
              exact absurd h0 ht
        | succ n =>
            constructor
            · intro h
              rcases Option.map_eq_some'.mp h with ⟨k, hk, hk1⟩
              have hkn : k = n := by omega
              subst hkn
              rcases (find_swap_output_scan_some s rest k).mp hk with ⟨h1, h2, h3⟩
              refine ⟨by simp only [List.length_cons]; omega,
                by simpa using h2, ?_⟩
              intro j hj
              cases j with
              | zero => simpa using ht
              | succ m =>
                  rw [List.getD_cons_succ]
                  exact h3 m (by omega)
            · rintro ⟨h1, h2, h3⟩
              have hrest : find_swap_output_scan s rest = some n := by
                apply (find_swap_output_scan_some s rest n).mpr
                refine ⟨by simp only [List.length_cons] at h1; omega,
                  by simpa using h2, ?_⟩
                intro j hj
                have hh := h3 (j + 1) (by omega)
                rwa [List.getD_cons_succ] at hh
              rw [hrest]
              rfl

theorem find_swap_output_scan_none (s : Bytes) :
    ∀ l : List CTxOut, find_swap_output_scan s l = none ↔
      ∀ j, j < l.length → (l.getD j nullTxOut).scriptPubKey ≠ s
  | [] => by simp [find_swap_output_scan]
  | t :: rest => by
      rw [find_swap_output_scan]
      by_cases ht : t.scriptPubKey = s
      · rw [if_pos ht]
        constructor
        · intro h
          exact absurd h (by simp)
        · intro hall
          exact absurd ht (by simpa using hall 0 (by simp))
      · rw [if_neg ht]
        rw [Option.map_eq_none']
        rw [find_swap_output_scan_none s rest]
        constructor
        · intro h j hj
          cases j with
          | zero => simpa using ht
          | succ m =>
              rw [List.getD_cons_succ]
              exact h m (by simp only [List.length_cons] at hj; omega)
        · intro h j hj
          have hh := h (j + 1) (by simp only [List.length_cons]; omega)
          rwa [List.getD_cons_succ] at hh

/-- `find_swap_output` returns the first matching output index, and the
escrow-not-found error exactly when no output matches. -/
theorem find_swap_output_iff (sha256 hash160 : Bytes → Bytes)
    (lockup : LockupTransaction) (rs : Bytes) :
    (∀ i, find_swap_output sha256 hash160 lockup rs = .ok i ↔
      (i < lockup.vout.length ∧
        (lockup.vout.getD i nullTxOut).scriptPubKey
          = swap_output_script sha256 hash160 rs ∧
        ∀ j, j < i → (lockup.vout.getD j nullTxOut).scriptPubKey
          ≠ swap_output_script sha256 hash160 rs)) ∧
    (find_swap_output sha256 hash160 lockup rs = .error "could not find swap output" ↔
      ∀ j, j < lockup.vout.length →
        (lockup.vout.getD j nullTxOut).scriptPubKey
          ≠ swap_output_script sha256 hash160 rs) := by
  constructor
  · intro i
    rcases hscan : find_swap_output_scan (swap_output_script sha256 hash160 rs)
        lockup.vout with - | k
    · simp only [find_swap_output, hscan]
      constructor
      · intro h
        exact absurd h (by simp)
      · intro hgood
        have h2 := (find_swap_output_scan_some _ lockup.vout i).mpr hgood
        rw [hscan] at h2
        exact absurd h2 (by simp)
    · simp only [find_swap_output, hscan]
      constructor
      · intro h
        have hik : k = i := Except.ok.inj h
        subst hik
        exact (find_swap_output_scan_some _ lockup.vout k).mp hscan
      · intro hgood
        have h2 := (find_swap_output_scan_some _ lockup.vout i).mpr hgood
        rw [hscan] at h2
        exact congrArg Except.ok (Option.some.inj h2)
  · rcases hscan : find_swap_output_scan (swap_output_script sha256 hash160 rs)
        lockup.vout with - | k
    · simp only [find_swap_output, hscan]
      rw [← find_swap_output_scan_none _ lockup.vout, hscan]
      simp
    · simp only [find_swap_output, hscan]
      constructor
      · intro h
        exact absurd h (by simp)
      · intro hnone
        have h2 := (find_swap_output_scan_none _ lockup.vout).mpr hnone
        rw [hscan] at h2
        exact absurd h2 (by simp)

theorem except_bind_ok {α β : Type} (a : α) (f : α → Except String β) :
    (Except.ok a : Except String α) >>= f = f a := rfl

theorem except_bind_error {α β : Type} (e : String) (f : α → Except String β) :
    (Except.error e : Except String α) >>= f = Except.error e := rfl

/-! ## Claim theorems -/

/-- C3: `find_swap_output` returns the smallest output index whose
script-pubkey equals `OP_HASH160 HASH160(OP_0 SHA-256(redeem_script))
OP_EQUAL` and fails with the escrow-output-not-found error when no output's
script-pubkey equals that derived script; for `[A, B, target]` where only
`target` matches, it returns 2. -/
theorem find_swap_output_first_match (sha256 hash160 : Bytes → Bytes)
    (lockup : LockupTransaction) (rs : Bytes) :
    (∀ i, find_swap_output sha256 hash160 lockup rs = .ok i ↔
      (i < lockup.vout.length ∧
        (lockup.vout.getD i nullTxOut).scriptPubKey
          = swap_output_script sha256 hash160 rs ∧
        ∀ j, j < i → (lockup.vout.getD j nullTxOut).scriptPubKey
          ≠ swap_output_script sha256 hash160 rs)) ∧
    (find_swap_output sha256 hash160 lockup rs = .error "could not find swap output" ↔
      ∀ j, j < lockup.vout.length →
        (lockup.vout.getD j nullTxOut).scriptPubKey
          ≠ swap_output_script sha256 hash160 rs) ∧
    (∀ A B target : CTxOut,
      A.scriptPubKey ≠ swap_output_script sha256 hash160 rs →
      B.scriptPubKey ≠ swap_output_script sha256 hash160 rs →
      target.scriptPubKey = swap_output_script sha256 hash160 rs →
      find_swap_output sha256 hash160 (LockupTransaction.mk lockup.txid [A, B, target]) rs
        = .ok 2) := by
  obtain ⟨hok, herr⟩ := find_swap_output_iff sha256 hash160 lockup rs
  refine ⟨hok, herr, ?_⟩
  intro A B target hA hB hT
  obtain ⟨hok3, -⟩ := find_swap_output_iff sha256 hash160
    (LockupTransaction.mk lockup.txid [A, B, target]) rs
  apply (hok3 2).mpr
  refine ⟨by simp, by simpa using hT, ?_⟩
  intro j hj
  interval_cases j
  · simpa using hA
  · simpa using hB

/-- C1: every successful run of `construct_refund_transaction` produces a
transaction with exactly one input spending the located escrow outpoint with
sequence `0xFFFFFFFD` and scriptSig `0x22 0x00 0x20 ‖ SHA-256(redeem_script)`,
locktime equal to the supplied timeout height, exactly one output paying
`input_amount - 1000` to the destination script-pubkey, and a witness stack of
exactly three elements `[signature ‖ SIGHASH_ALL, empty, redeem_script]`. -/
theorem construct_refund_transaction_spec
    (sha256 hash160 : Bytes → Bytes) (addr_script : String → Option Bytes)
    (signature_hash : RefundTransaction → ℤ → Bytes → Bytes)
    (sign : Bytes → Bytes → Bytes) (cc : ChannelCreation)
    (lockup : LockupTransaction) (address : String) (timeout : ℤ)
    (t : RefundTransaction)
    (h : construct_refund_transaction sha256 hash160 addr_script signature_hash
      sign cc lockup address timeout = .ok t) :
    ∃ i spk,
      find_swap_output sha256 hash160 lockup cc.redeem_script = .ok i ∧
      addr_script address = some spk ∧
      t.vin = [CTxIn.mk lockup.txid i
        (0x22 :: 0x00 :: 0x20 :: sha256 cc.redeem_script) 0xfffffffd] ∧
      t.nLockTime = timeout ∧
      t.vout = [CTxOut.mk ((lockup.vout.getD i nullTxOut).nValue - 1000) spk] ∧
      ∃ sighash, t.wit
        = [[sign cc.private_key sighash ++ [SIGHASH_ALL], [], cc.redeem_script]] := by
  rcases hfind : find_swap_output sha256 hash160 lockup cc.redeem_script with e | i
  · simp only [construct_refund_transaction, hfind] at h
    exact absurd h (by simp)
  · rcases haddr : addr_script address with - | spk
    · simp only [construct_refund_transaction, hfind, haddr] at h
      exact absurd h (by simp)
    · simp only [construct_refund_transaction, hfind, haddr] at h
      have ht := (Except.ok.inj h).symm
      refine ⟨i, spk, rfl, rfl, ?_, ?_, ?_, ?_⟩
      · rw [ht]
      · rw [ht]
      · rw [ht]
      · exact ⟨_, by rw [ht]⟩

/-- C1 witness: the concrete run on `exRecord` and `exLockup`. -/
theorem construct_refund_transaction_spec_witness :
    ∃ i spk,
      find_swap_output exSha256 exHash160 exLockup exRecord.redeem_script = .ok i ∧
      exAddrScript "addr" = some spk ∧
      exRefundTx.vin = [CTxIn.mk exLockup.txid i
        (0x22 :: 0x00 :: 0x20 :: exSha256 exRecord.redeem_script) 0xfffffffd] ∧
      exRefundTx.nLockTime = 600000 ∧
      exRefundTx.vout = [CTxOut.mk ((exLockup.vout.getD i nullTxOut).nValue - 1000) spk] ∧
      ∃ sighash, exRefundTx.wit
        = [[exSign exRecord.private_key sighash ++ [SIGHASH_ALL], [],
            exRecord.redeem_script]] :=
  construct_refund_transaction_spec exSha256 exHash160 exAddrScript
    exSignatureHash exSign exRecord exLockup "addr" 600000 exRefundTx rfl

/-- C7: `construct_refund_transaction` has no insufficient-funds check: on an
escrow output worth 500 satoshis it happily returns a transaction whose single
output value is the negative amount `500 - 1000 = -500` instead of failing. -/
theorem construct_refund_no_insufficient_funds_check :
    ∃ t, construct_refund_transaction exSha256 exHash160 exAddrScript
        exSignatureHash exSign exRecord exLockup500 "addr" 600000 = .ok t ∧
      t.vout.map CTxOut.nValue = [-500] :=
  ⟨_, rfl, rfl⟩

/-- `on_openchannel` for the expected counterparty on a `Created` record:
behaviour determined by the guard's result. -/
theorem on_openchannel_eq (boltz_node : String) (cc : ChannelCreation)
    (oc : OpenChannel) (r : String)
    (hid : oc.id = boltz_node) (hst : cc.status = Status.Created)
    (hcheck : check_channel_open oc cc = .ok r) :
    on_openchannel boltz_node (some cc) oc =
      if r ≠ "" then .ok (.reject (some r), some cc)
      else .ok (.cont, some { cc with status := Status.ChannelAccepted }) := by
  simp only [on_openchannel, hcheck]
  rw [if_neg (by simp [hid, hst])]

/-- C4: on a record in state `Created`, a proposal from the expected
counterparty with zero push amount, capacity equal to the expected capacity
and visibility matching `record.private` is accepted and the status advances
to `ChannelAccepted`; a proposal violating exactly one of the three
conditions is rejected, with no state change, with a reason that
distinguishes the three rejections. -/
theorem on_openchannel_guard (boltz_node : String) (cc : ChannelCreation)
    (oc : OpenChannel) (e : ℤ)
    (hstatus : cc.status = Status.Created) (hid : oc.id = boltz_node)
    (hexp : expected_capacity cc.invoice_amount cc.inbound_percentage = some e) :
    (oc.push_msat = 0 → oc.funding_satoshis = e →
      oc.channel_flags = (if cc.«private» then 0 else 1) →
      on_openchannel boltz_node (some cc) oc
        = .ok (.cont, some { cc with status := Status.ChannelAccepted })) ∧
    (oc.push_msat ≠ 0 →
      on_openchannel boltz_node (some cc) oc
        = .ok (.reject (some "push amount not 0"), some cc)) ∧
    (oc.push_msat = 0 → oc.funding_satoshis < e →
      on_openchannel boltz_node (some cc) oc
        = .ok (.reject (some (capacity_error_message e)), some cc)) ∧
    (oc.push_msat = 0 → e ≤ oc.funding_satoshis →
      oc.channel_flags = (if cc.«private» then 1 else 0) →
      on_openchannel boltz_node (some cc) oc
        = .ok (.reject (some (if cc.«private» then "channel is not private"
            else "channel is not public")), some cc)) ∧
    (capacity_error_message e ≠ "push amount not 0" ∧
      capacity_error_message e ≠ "channel is not private" ∧
      capacity_error_message e ≠ "channel is not public" ∧
      ("push amount not 0" : String) ≠ "channel is not private" ∧
      ("push amount not 0" : String) ≠ "channel is not public" ∧
      ("channel is not private" : String) ≠ "channel is not public") := by
  have hcases := check_channel_open_cases oc cc e hexp
  refine ⟨?_, ?_, ?_, ?_, ?_, ?_, ?_, ?_, ?_, ?_⟩
  · intro hpush hcap hflags
    have hcheck : check_channel_open oc cc = .ok "" := by
      rw [hcases, if_neg (by omega), if_neg (by omega)]
      rcases hpriv : cc.«private» with - | -
      · simp [hpriv] at hflags
        rw [if_neg (by simp [hpriv]), if_neg (by simp [hflags])]
      · simp [hpriv] at hflags
        rw [if_neg (by simp [hflags]), if_neg (by simp [hpriv])]
    rw [on_openchannel_eq boltz_node cc oc "" hid hstatus hcheck]
    simp
  · intro hpush
    have hcheck : check_channel_open oc cc = .ok "push amount not 0" := by
      rw [hcases, if_pos hpush]
    rw [on_openchannel_eq boltz_node cc oc _ hid hstatus hcheck]
    simp
  · intro hpush hcap
    have hcheck : check_channel_open oc cc = .ok (capacity_error_message e) := by
      rw [hcases, if_neg (by omega), if_pos (by omega)]
    rw [on_openchannel_eq boltz_node cc oc _ hid hstatus hcheck]
    rw [if_pos (capacity_error_message_ne e "" (by decide))]
  · intro hpush hcap hflags
    rcases hpriv : cc.«private» with - | -
    · have hcheck : check_channel_open oc cc = .ok "channel is not public" := by
        rw [hcases, if_neg (by omega), if_neg (by omega), if_neg (by simp [hpriv])]
        simp [hpriv] at hflags
        rw [if_pos (by simp [hpriv, hflags])]
      rw [on_openchannel_eq boltz_node cc oc _ hid hstatus hcheck]
      simp [hpriv]
    · have hcheck : check_channel_open oc cc = .ok "channel is not private" := by
        rw [hcases, if_neg (by omega), if_neg (by omega)]
        simp [hpriv] at hflags
        rw [if_pos (by simp [hpriv, hflags])]
      rw [on_openchannel_eq boltz_node cc oc _ hid hstatus hcheck]
      simp [hpriv]
  · exact capacity_error_message_ne e _ (by decide)
  · exact capacity_error_message_ne e _ (by decide)
  · exact capacity_error_message_ne e _ (by decide)
  · decide
  · decide
  · decide

set_option maxRecDepth 4000 in
/-- C4 witness: `exRecord` (100000 msat invoice, 50 % inbound, public) with a
matching public proposal of 200000 msat is accepted. -/
theorem on_openchannel_guard_witness :
    on_openchannel "node" (some exRecord) exProposal
      = .ok (.cont, some { exRecord with status := Status.ChannelAccepted }) :=
  (on_openchannel_guard "node" exRecord exProposal 200000 rfl rfl
    (by decide)).1 rfl rfl rfl

/-- C5: on a record in state `ChannelAccepted`, an invoice-payment event
whose label matches `invoice_label` is accepted (status advances to
`InvoicePaid`) exactly when `preimage_hash` appears among the payment hashes
of the HTLCs on the channel to the counterparty; when it is absent the event
is rejected with no state change even though the label matches, and an event
whose label does not match is ignored (continue) rather than rejected. -/
theorem on_invoice_payment_guard (cc : ChannelCreation) (payment_label : String)
    (peers : List Peer) (peer : Peer) (channel : PeerChannel)
    (hstatus : cc.status = Status.ChannelAccepted)
    (hhead : peers.head? = some peer)
    (hlast : peer.channels.getLast? = some channel) :
    (cc.invoice_label = payment_label →
      (cc.preimage_hash ∈ channel.htlcs →
        on_invoice_payment (some cc) payment_label peers
          = .ok (.cont, some { cc with status := Status.InvoicePaid })) ∧
      (cc.preimage_hash ∉ channel.htlcs →
        on_invoice_payment (some cc) payment_label peers
          = .ok (.reject none, some cc))) ∧
    (cc.invoice_label ≠ payment_label →
      on_invoice_payment (some cc) payment_label peers = .ok (.cont, some cc)) := by
  constructor
  · intro hlabel
    have hbase : ∀ res : Except String (HookResult × Option ChannelCreation),
        (if cc.preimage_hash ∈ channel.htlcs then
          (Except.ok (HookResult.cont, some { cc with status := Status.InvoicePaid }))
        else (Except.ok (HookResult.reject none, some cc))) = res →
        on_invoice_payment (some cc) payment_label peers = res := by
      intro res hres
      simp only [on_invoice_payment, hhead, hlast]
      rw [if_neg (by simp [hlabel]), if_neg (by simp [hstatus])]
      exact hres
    constructor
    · intro hmem
      exact hbase _ (by rw [if_pos hmem])
    · intro hmem
      exact hbase _ (by rw [if_neg hmem])
  · intro hlabel
    simp only [on_invoice_payment]
    rw [if_pos hlabel]

/-- C5 witness: `exAccepted` with a matching payment over a channel carrying
the right payment hash advances to `InvoicePaid`. -/
theorem on_invoice_payment_guard_witness :
    on_invoice_payment (some exAccepted) "boltz-channel-77"
        [Peer.mk "node" [PeerChannel.mk "CHANNELD_NORMAL" ["cafebabe"]]]
      = .ok (.cont, some { exAccepted with status := Status.InvoicePaid }) :=
  ((on_invoice_payment_guard exAccepted "boltz-channel-77"
      [Peer.mk "node" [PeerChannel.mk "CHANNELD_NORMAL" ["cafebabe"]]]
      (Peer.mk "node" [PeerChannel.mk "CHANNELD_NORMAL" ["cafebabe"]])
      (PeerChannel.mk "CHANNELD_NORMAL" ["cafebabe"])
      rfl rfl rfl).1 rfl).1 (by decide)

/-- C6: a record whose status is terminal (`InvoicePaid` or `Refunded`)
is never changed again: the channel-open hook, the invoice-payment hook and
the refund RPC all leave the state exactly as it is. -/
theorem terminal_record_frozen (cc : ChannelCreation) (boltz_node : String)
    (oc : OpenChannel) (payment_label : String) (peers : List Peer)
    (blockcount : ℤ) (swap_transaction : SwapTransactionResponse)
    (newaddr address : String) (sha256 hash160 : Bytes → Bytes)
    (addr_script : String → Option Bytes)
    (signature_hash : RefundTransaction → ℤ → Bytes → Bytes)
    (sign : Bytes → Bytes → Bytes)
    (serialize_hex txid_hex : RefundTransaction → String)
    (broadcast : BroadcastResponse)
    (hterm : cc.status = Status.InvoicePaid ∨ cc.status = Status.Refunded) :
    on_openchannel boltz_node (some cc) oc = .ok (.cont, some cc) ∧
    (∃ r, on_invoice_payment (some cc) payment_label peers = .ok (r, some cc)) ∧
    refund_channel_creation (some cc) blockcount swap_transaction newaddr address
        sha256 hash160 addr_script signature_hash sign serialize_hex txid_hex
        broadcast
      = .ok (.err "no refundable channel creation found", some cc) := by
  have hnotCreated : cc.status ≠ Status.Created := by
    rcases hterm with h | h <;> simp [h]
  have hnotAccepted : cc.status ≠ Status.ChannelAccepted := by
    rcases hterm with h | h <;> simp [h]
  refine ⟨?_, ?_, ?_⟩
  · simp only [on_openchannel]
    rw [if_pos (Or.inr hnotCreated)]
  · by_cases hlabel : cc.invoice_label ≠ payment_label
    · refine ⟨.cont, ?_⟩
      simp only [on_invoice_payment]
      rw [if_pos hlabel]
    · refine ⟨.reject none, ?_⟩
      simp only [on_invoice_payment]
      rw [if_neg hlabel, if_pos hnotAccepted]
  · simp only [refund_channel_creation]
    rw [if_pos hterm]

/-- C6 witness: a paid-out record ignores a channel-open event, rejects a
matching payment event and refuses to be refunded, all without a state
change. -/
theorem terminal_record_frozen_witness :
    on_openchannel "node" (some exPaid) exProposal = .ok (.cont, some exPaid) ∧
    (∃ r, on_invoice_payment (some exPaid) "boltz-channel-77" []
      = .ok (r, some exPaid)) ∧
    refund_channel_creation (some exPaid) 700000 exSwapTx "addr2" ""
        exSha256 exHash160 exAddrScript exSignatureHash exSign exSerializeHex
        exTxidHex (BroadcastResponse.mk true "")
      = .ok (.err "no refundable channel creation found", some exPaid) :=
  terminal_record_frozen exPaid "node" exProposal "boltz-channel-77" []
    700000 exSwapTx "addr2" "" exSha256 exHash160 exAddrScript exSignatureHash
    exSign exSerializeHex exTxidHex (BroadcastResponse.mk true "") (Or.inl rfl)

/-- C8 is false on the code: with the record in state `ChannelAccepted` and a
matching invoice label, a peer listing with no entry for the counterparty
makes `on_invoice_payment` raise `IndexError` (from
`listpeers(boltz_node)["peers"][0]`) instead of returning continue or
reject. -/
theorem on_invoice_payment_raises_index_error :
    on_invoice_payment (some exAccepted) "boltz-channel-77" []
      = .error "IndexError: list index out of range" := rfl

/-- C9: if broadcasting the refund transaction fails,
`refund_channel_creation` returns an error response and leaves the record in
its pre-attempt state; the status is set to `Refunded` only when the
broadcast reports success. -/
theorem refund_broadcast_failure (state : Option ChannelCreation)
    (blockcount : ℤ) (swap_transaction : SwapTransactionResponse)
    (newaddr address : String) (sha256 hash160 : Bytes → Bytes)
    (addr_script : String → Option Bytes)
    (signature_hash : RefundTransaction → ℤ → Bytes → Bytes)
    (sign : Bytes → Bytes → Bytes)
    (serialize_hex txid_hex : RefundTransaction → String)
    (broadcast : BroadcastResponse) :
    (broadcast.success = false →
      ∀ result st', refund_channel_creation state blockcount swap_transaction
          newaddr address sha256 hash160 addr_script signature_hash sign
          serialize_hex txid_hex broadcast = .ok (result, st') →
        st' = state ∧ ∃ msg, result = .err msg) ∧
    (∀ result st', refund_channel_creation state blockcount swap_transaction
        newaddr address sha256 hash160 addr_script signature_hash sign
        serialize_hex txid_hex broadcast = .ok (result, st') → st' ≠ state →
      broadcast.success = true ∧ ∃ cc, state = some cc ∧
        st' = some { cc with status := Status.Refunded }) := by
  constructor
  · intro hfail result st' h
    rcases state with - | cc
    · simp only [refund_channel_creation] at h
      injection h with h2
      injection h2 with hr hs
      exact ⟨hs.symm, _, hr.symm⟩
    · simp only [refund_channel_creation] at h
      by_cases hterm : cc.status = Status.InvoicePaid ∨ cc.status = Status.Refunded
      · rw [if_pos hterm] at h
        injection h with h2
        injection h2 with hr hs
        exact ⟨hs.symm, _, hr.symm⟩
      · rw [if_neg hterm] at h
        by_cases hheight : blockcount < swap_transaction.timeoutBlockHeight
        · rw [if_pos hheight] at h
          injection h with h2
          injection h2 with hr hs
          exact ⟨hs.symm, _, hr.symm⟩
        · rw [if_neg hheight] at h
          rcases hcon : construct_refund_transaction sha256 hash160 addr_script
              signature_hash sign cc swap_transaction.transaction
              (if address = "" then newaddr else address)
              swap_transaction.timeoutBlockHeight with e | t
          · simp only [hcon] at h
            exact absurd h (by simp)
          · simp only [hcon] at h
            rw [if_neg (by simp [hfail])] at h
            injection h with h2
            injection h2 with hr hs
            exact ⟨hs.symm, _, hr.symm⟩
  · intro result st' h hne
    rcases state with - | cc
    · simp only [refund_channel_creation] at h
      injection h with h2
      injection h2 with hr hs
      exact absurd hs.symm hne
    · simp only [refund_channel_creation] at h
      by_cases hterm : cc.status = Status.InvoicePaid ∨ cc.status = Status.Refunded
      · rw [if_pos hterm] at h
        injection h with h2
        injection h2 with hr hs
        exact absurd hs.symm hne
      · rw [if_neg hterm] at h
        by_cases hheight : blockcount < swap_transaction.timeoutBlockHeight
        · rw [if_pos hheight] at h
          injection h with h2
          injection h2 with hr hs
          exact absurd hs.symm hne
        · rw [if_neg hheight] at h
          rcases hcon : construct_refund_transaction sha256 hash160 addr_script
              signature_hash sign cc swap_transaction.transaction
              (if address = "" then newaddr else address)
              swap_transaction.timeoutBlockHeight with e | t
          · simp only [hcon] at h
            exact absurd h (by simp)
          · simp only [hcon] at h
            by_cases hsucc : broadcast.success = true
            · rw [if_pos hsucc] at h
              injection h with h2
              injection h2 with hr hs
              exact ⟨hsucc, cc, rfl, hs.symm⟩
            · rw [if_neg hsucc] at h
              injection h with h2
              injection h2 with hr hs
              exact absurd hs.symm hne

/-- C10: `add_channel_creation` performs no range validation on
`inbound_percentage`, so a record with `inbound_percentage = 100` is created
at the public interface; on such a record `check_channel_open`'s division by
`1 - inbound_percentage / 100` raises `ZeroDivisionError`, while for
`inbound_percentage ∈ [0, 100)` the guard always returns a result. -/
theorem add_channel_creation_no_inbound_validation
    (boltz_node invoice_label : String) (invoice_response : InvoiceResponse)
    (private_key : Bytes) (swap : SwapResponse)
    (invoice_amount : ℤ) («private» : Bool) :
    (∃ cc, add_channel_creation none [] boltz_node invoice_label invoice_response
        private_key (.ok swap) invoice_amount 100 «private»
        = (.ok swap.address swap.expectedAmount swap.bip21, some cc) ∧
      cc.inbound_percentage = 100 ∧ cc.status = Status.Created) ∧
    (∀ (cc : ChannelCreation) (oc : OpenChannel), cc.inbound_percentage = 100 →
      oc.push_msat = 0 →
      check_channel_open oc cc = .error "ZeroDivisionError: float division by zero") ∧
    (∀ (cc : ChannelCreation) (oc : OpenChannel), 0 ≤ cc.inbound_percentage →
      cc.inbound_percentage < 100 →
      ∃ r, check_channel_open oc cc = .ok r) := by
  refine ⟨⟨_, rfl, rfl, rfl⟩, ?_, ?_⟩
  · intro cc oc hp hpush
    unfold check_channel_open
    rw [if_neg (by simp [hpush])]
    rw [hp, expected_capacity_at_100]
  · intro cc oc h0 h100
    by_cases hpush : oc.push_msat ≠ 0
    · exact ⟨_, by unfold check_channel_open; rw [if_pos hpush]⟩
    · obtain ⟨e, he⟩ : ∃ e,
          expected_capacity cc.invoice_amount cc.inbound_percentage = some e :=
        ⟨_, expected_capacity_eq_some h0 h100⟩
      rw [check_channel_open_cases oc cc e he]
      split_ifs <;> exact ⟨_, rfl⟩

/-- C2 (amended): the capacity threshold `check_channel_open` uses is the
binary64 float evaluation of `invoice_amount / (1 - inbound_percentage/100)`
(not the exact rational floor); it equals `invoice_amount` when
`inbound_percentage = 0` (for amounts below `2 ^ 53`, where conversion to
float is exact), it is monotonically non-decreasing in `inbound_percentage`
on `[0, 100)`, and a proposal is rejected for insufficient capacity exactly
when its proposed capacity is strictly below the threshold. -/
theorem expected_capacity_float_props (a : ℤ) (ha : 0 < a) :
    (a < 2 ^ (53 : ℕ) → expected_capacity a 0 = some a) ∧
    (∀ p₁ p₂ : ℤ, 0 ≤ p₁ → p₁ ≤ p₂ → p₂ < 100 →
      ∃ e₁ e₂ : ℤ, expected_capacity a p₁ = some e₁ ∧
        expected_capacity a p₂ = some e₂ ∧ e₁ ≤ e₂) ∧
    (∀ (cc : ChannelCreation) (oc : OpenChannel) (e : ℤ),
      cc.invoice_amount = a →
      expected_capacity cc.invoice_amount cc.inbound_percentage = some e →
      (check_channel_open oc cc = .ok (capacity_error_message e) ↔
        oc.push_msat = 0 ∧ oc.funding_satoshis < e)) := by
  refine ⟨fun h53 => expected_capacity_zero ha h53, ?_, ?_⟩
  · intro p₁ p₂ h0 h12 h100
    exact expected_capacity_mono ha h0 h12 h100
  · intro cc oc e hinv hexp
    exact check_channel_open_capacity_iff oc cc e hexp

/-- C2 witness: the float capacity properties at `invoice_amount = 100000`. -/
theorem expected_capacity_float_props_witness :
    ((100000 : ℤ) < 2 ^ (53 : ℕ) → expected_capacity 100000 0 = some 100000) ∧
    (∀ p₁ p₂ : ℤ, 0 ≤ p₁ → p₁ ≤ p₂ → p₂ < 100 →
      ∃ e₁ e₂ : ℤ, expected_capacity 100000 p₁ = some e₁ ∧
        expected_capacity 100000 p₂ = some e₂ ∧ e₁ ≤ e₂) ∧
    (∀ (cc : ChannelCreation) (oc : OpenChannel) (e : ℤ),
      cc.invoice_amount = 100000 →
      expected_capacity cc.invoice_amount cc.inbound_percentage = some e →
      (check_channel_open oc cc = .ok (capacity_error_message e) ↔
        oc.push_msat = 0 ∧ oc.funding_satoshis < e)) :=
  expected_capacity_float_props 100000 (by norm_num)

/-- C2 counterexample: at `invoice_amount = 1`, `inbound_percentage = 99` the
code computes `math.floor(1 / (1 - 0.99)) = 99` in binary64 floats, while the
exact integer floor of `1 / (1 - 99/100)` is `100`. -/
theorem expected_capacity_not_exact_floor :
    expected_capacity 1 99 = some 99 ∧ spec_expected_capacity 1 99 = 100 := by
  constructor
  · decide
  · decide

end BoltzPlugin
